import Mathlib

/-!
Verification of the location-tracker prototype (`src/lt.py`).

The program keeps a module-level dictionary `reports : dict[str, list[entry]]`
guarded by a single lock `reports_lock`.  Python dictionaries preserve
insertion order and have unique keys, so the store is embedded as an
association list `Store := List (String × List Entry)` whose operations update
the first (and, under the no-duplicate-keys invariant, only) occurrence of a
key and append fresh keys at the end.

The Flask endpoint `receive_report` (lt.py lines 116-133) parses the request
body as JSON (`request.get_json(force=True)`); a parse failure returns a 400
response and leaves the store untouched, any parsed value is wrapped verbatim
in an entry `{received_at, remote_addr, payload}` and appended with
`reports.setdefault(token, []).append(entry)` under the lock.  The body is
embedded as `Except String Json` (the result of the parse: `.error msg` for a
raised exception, `.ok data` for any JSON value).

The Streamlit side: the generate-link handler (lines 172-191) draws a token,
computes `expires_at` (never read afterwards), runs
`reports.setdefault(token, [])` under the lock and stores a metadata record in
`st.session_state["meta_" ++ token]`.  The dashboard (lines 200-207) builds
its token selector from the `meta_` session-state entries only and reads a
selected token's reports with `reports.get(sel, []).copy()` under the lock.

Since each lock-protected critical section is atomic, a concurrent execution
of endpoint calls is embedded as a sequential execution of the same atomic
operations in some interleaving order (a permutation of the requests).
-/

namespace LocationTracker

/-- JSON values, the possible results of `request.get_json`. Numbers are
modelled as rationals; the program performs no arithmetic on them, it only
stores and returns them. -/
inductive Json where
  | null : Json
  | bool (b : Bool) : Json
  | num (q : Rat) : Json
  | str (s : String) : Json
  | arr (elems : List Json) : Json
  | obj (fields : List (String × Json)) : Json

/-- One stored report entry, built at lt.py lines 124-128:
`{"received_at": ..., "remote_addr": ..., "payload": data}`. -/
structure Entry where
  received_at : String
  remote_addr : String
  payload : Json

/-- The `reports` dictionary: token -> ordered list of entries
(insertion-ordered association list with unique keys). -/
def Store := List (String × List Entry)

/-- `reports.setdefault(token, []).append(entry)` (lt.py line 131): update the
first occurrence of the key, or append a fresh `(token, [entry])` binding. -/
def appendReport : Store → String → Entry → Store
  | [], t, e => [(t, [e])]
  | (k, l) :: rest, t, e =>
      if k = t then (k, l ++ [e]) :: rest else (k, l) :: appendReport rest t e

/-- `reports.setdefault(token, [])` (lt.py line 179): register the token with
an empty list if absent, otherwise leave the store unchanged. -/
def createToken : Store → String → Store
  | [], t => [(t, [])]
  | (k, l) :: rest, t =>
      if k = t then (k, l) :: rest else (k, l) :: createToken rest t

/-- `reports.get(sel, ...)` as an option: the list bound to a token. -/
def lookupReports : Store → String → Option (List Entry)
  | [], _ => none
  | (k, l) :: rest, t => if k = t then some l else lookupReports rest t

/-- `reports.get(sel, []).copy()` (lt.py line 207); copying is the identity on
values, the aliasing consequences of the shallow copy are studied separately
in the `Aliasing` namespace below. -/
def listReports (s : Store) (t : String) : List Entry :=
  (lookupReports s t).getD []

/-- The store's key set (the tokens the `reports` dictionary knows). -/
def storeTokens (s : Store) : List String := s.map Prod.fst

/-- The endpoint `receive_report` (lt.py lines 116-133).  `body` is the
outcome of `request.get_json(force=True)`; `now` is `datetime.utcnow()`
rendered as the ISO string of line 125; `addr` is `request.remote_addr`.
Returns the new store, the response JSON and the HTTP status code. -/
def receive_report (token : String) (body : Except String Json)
    (now addr : String) (s : Store) : Store × Json × Nat :=
  match body with
  | .error msg =>
      (s, Json.obj [("error", Json.str "Invalid JSON"), ("details", Json.str msg)], 400)
  | .ok data =>
      (appendReport s token ⟨now, addr, data⟩,
       Json.obj [("status", Json.str "ok")], 200)

/-- First-occurrence lookup in a JSON object's field list. -/
def lookupField : List (String × Json) → String → Option Json
  | [], _ => none
  | (k, v) :: rest, f => if k = f then some v else lookupField rest f

/-- `p.get(field)` on a parsed payload (dashboard rows, lt.py lines 218-221):
`none` when the payload is not an object or lacks the field. -/
def jsonGet : Json → String → Option Json
  | .obj fields, f => lookupField fields f
  | _, _ => none

/-- The metadata record stored by the generate-link handler
(lt.py lines 187-191). Time is modelled in minutes since an epoch, so
`expires_at = now + ttl` embeds `utcnow() + timedelta(minutes=ttl)`. -/
structure Meta where
  label : String
  expires_at : Option Nat
  token : String
deriving DecidableEq, Repr

/-- `st.session_state[f"meta_{token}"] = meta`: dictionary assignment, keyed
by token. -/
def setMeta : List (String × Meta) → String → Meta → List (String × Meta)
  | [], t, m => [(t, m)]
  | (k, v) :: rest, t, m =>
      if k = t then (k, m) :: rest else (k, v) :: setMeta rest t m

/-- Lookup of a `meta_` session-state entry. -/
def getMeta : List (String × Meta) → String → Option Meta
  | [], _ => none
  | (k, v) :: rest, t => if k = t then some v else getMeta rest t

/-- The whole mutable state the claims talk about: the `reports` dictionary
and the `meta_` entries of `st.session_state`. -/
structure SysState where
  store : Store
  metas : List (String × Meta)

/-- `receive_report` at the system level: the endpoint touches only the
`reports` dictionary, session-state metadata is neither read nor written. -/
def sysReceive (st : SysState) (token : String) (body : Except String Json)
    (now addr : String) : SysState × Json × Nat :=
  let r := receive_report token body now addr st.store
  (⟨r.1, st.metas⟩, r.2)

/-- The generate-link button handler (lt.py lines 172-191): computes
`expires_at` when `ttl > 0`, registers the token in the store with
`setdefault`, and saves the metadata record under `meta_{token}`. -/
def generateLink (st : SysState) (token label : String) (ttlMinutes : Nat)
    (now : Nat) : SysState :=
  let expires_at := if ttlMinutes > 0 then some (now + ttlMinutes) else none
  { store := createToken st.store token,
    metas := setMeta st.metas token ⟨label, expires_at, token⟩ }

/-- The dashboard's token selector (lt.py line 200): the tokens recorded in
`meta_` session-state entries — not the keys of the `reports` dictionary. -/
def dashTokens (metas : List (String × Meta)) : List String :=
  metas.map (fun kv => kv.2.token)

/-- The atomic lock-protected operations that mutate the store, for trace
reasoning: a generate-link click or one ingestion request. -/
inductive Op where
  | create (token : String)
  | receive (token : String) (body : Except String Json) (now addr : String)

/-- The token an operation addresses. -/
def Op.token : Op → String
  | .create t => t
  | .receive t _ _ _ => t

/-- Apply one atomic operation to the store. -/
def applyOp (s : Store) : Op → Store
  | .create t => createToken s t
  | .receive t body now addr => (receive_report t body now addr s).1

/-- Run a sequence of atomic operations from the empty start-up store
(`reports = {}`, lt.py line 48). -/
def runOps (ops : List Op) : Store := ops.foldl applyOp []

/-!
Aliasing model for the dashboard read `reports.get(sel, []).copy()`
(lt.py lines 206-207).  `.copy()` makes a *shallow* copy: the list object
returned to the caller is fresh, but the entry dictionaries inside it are the
very objects stored in `reports`.  To reason about what caller-side mutation
can reach, list objects and entry objects live in explicit heaps addressed by
`Nat` references; the `reports` dictionary maps each token to the reference
of its list object.
-/

namespace Aliasing

/-- The Python object heap: list objects (holding entry references) and entry
(dict) objects. -/
structure PyHeap where
  lists : List (List Nat)
  entries : List Entry

/-- The `reports` dictionary, mapping a token to the reference of its list
object. -/
def HStore := List (String × Nat)

/-- First-occurrence key lookup in the dictionary. -/
def hlookup : HStore → String → Option Nat
  | [], _ => none
  | (k, r) :: rest, t => if k = t then some r else hlookup rest t

/-- Dereference a list object (unallocated references read as `[]`). -/
def getListRefs (h : PyHeap) (lr : Nat) : List Nat := h.lists.getD lr []

/-- `reports.get(sel, []).copy()`: allocate a fresh list object holding the
same entry references as the stored list (or of the empty list when the token
is unknown) and hand its reference to the caller. -/
def snapshotCopy (h : PyHeap) (s : HStore) (t : String) : PyHeap × Nat :=
  let refs := match hlookup s t with
    | some lr => getListRefs h lr
    | none => []
  ({ h with lists := h.lists ++ [refs] }, h.lists.length)

/-- A caller-side in-place mutation of a list object: appending an entry
reference to the list addressed by `lr`. -/
def callerListAppend (h : PyHeap) (lr : Nat) (er : Nat) : PyHeap :=
  { h with lists := h.lists.set lr (getListRefs h lr ++ [er]) }

/-- A caller-side in-place mutation of an entry (dict) object. -/
def callerEntryWrite (h : PyHeap) (er : Nat) (e : Entry) : PyHeap :=
  { h with entries := h.entries.set er e }

/-- What the store observably holds for a token: the entries its list object
references, as a later `reports.get(sel, []).copy()` would render them. -/
def observedReports (h : PyHeap) (s : HStore) (t : String) : List (Option Entry) :=
  match hlookup s t with
  | some lr => (getListRefs h lr).map (fun er => h.entries.get? er)
  | none => []

end Aliasing

/-!
Concrete data used by witnesses and counterexamples.
-/

/-- A payload whose `latitude` field is present but non-numeric
(and whose `longitude` is numeric). -/
def badLatPayload : Json :=
  Json.obj [("latitude", Json.str "not-a-number"), ("longitude", Json.num (-122))]

/-- A sample stored entry. -/
def entryA : Entry := ⟨"2026-01-01T00:00:00Z", "10.0.0.1", Json.num 1⟩

/-- A second, distinct sample entry. -/
def entryB : Entry := ⟨"2026-01-01T00:00:05Z", "10.0.0.2", Json.num 2⟩

/-- A one-report heap: the single list object `[0]` references entry object 0. -/
def heap0 : Aliasing.PyHeap := ⟨[[0]], [entryA]⟩

/-- A store whose token `tok` is bound to list object 0 of `heap0`. -/
def hstore0 : Aliasing.HStore := [("tok", 0)]

/-!
Basic lemmas about the store operations.
-/

@[simp] theorem storeTokens_nil : storeTokens [] = [] := rfl

@[simp] theorem storeTokens_cons (k : String) (l : List Entry) (rest : Store) :
    storeTokens ((k, l) :: rest) = k :: storeTokens rest := rfl

@[simp] theorem lookupReports_nil (t : String) : lookupReports [] t = none := rfl

@[simp] theorem lookupReports_cons (k : String) (l : List Entry) (rest : Store)
    (t : String) :
    lookupReports ((k, l) :: rest) t = if k = t then some l else lookupReports rest t := rfl

@[simp] theorem appendReport_nil (t : String) (e : Entry) :
    appendReport [] t e = [(t, [e])] := rfl

@[simp] theorem appendReport_cons (k : String) (l : List Entry) (rest : Store)
    (t : String) (e : Entry) :
    appendReport ((k, l) :: rest) t e =
      if k = t then (k, l ++ [e]) :: rest else (k, l) :: appendReport rest t e := rfl

@[simp] theorem createToken_nil (t : String) : createToken [] t = [(t, [])] := rfl

@[simp] theorem createToken_cons (k : String) (l : List Entry) (rest : Store)
    (t : String) :
    createToken ((k, l) :: rest) t =
      if k = t then (k, l) :: rest else (k, l) :: createToken rest t := rfl

theorem lookupReports_eq_none_iff (s : Store) (t : String) :
    lookupReports s t = none ↔ t ∉ storeTokens s := by
  induction s with
  | nil => simp
  | cons kv rest ih =>
    obtain ⟨k, l⟩ := kv
    by_cases h : k = t
    · subst h; simp
    · have ht : ¬ t = k := fun hh => h hh.symm
      simp [h, ht, ih]

theorem listReports_of_not_mem {s : Store} {t : String} (h : t ∉ storeTokens s) :
    listReports s t = [] := by
  unfold listReports
  rw [(lookupReports_eq_none_iff s t).mpr h]
  rfl

theorem listReports_appendReport_self (s : Store) (t : String) (e : Entry) :
    listReports (appendReport s t e) t = listReports s t ++ [e] := by
  induction s with
  | nil => simp [listReports]
  | cons kv rest ih =>
    obtain ⟨k, l⟩ := kv
    by_cases h : k = t
    · subst h; simp [listReports]
    · simpa [listReports, h] using ih

theorem listReports_appendReport_ne (s : Store) {t t' : String} (e : Entry)
    (h : t' ≠ t) :
    listReports (appendReport s t e) t' = listReports s t' := by
  have ht : ¬ t = t' := fun hh => h hh.symm
  induction s with
  | nil => simp [listReports, ht]
  | cons kv rest ih =>
    obtain ⟨k, l⟩ := kv
    by_cases hk : k = t
    · subst hk; simp [listReports, ht]
    · by_cases hk' : k = t'
      · subst hk'; simp [listReports, hk]
      · simpa [listReports, hk, hk'] using ih

theorem listReports_createToken (s : Store) (t t' : String) :
    listReports (createToken s t) t' = listReports s t' := by
  induction s with
  | nil =>
    by_cases h : t = t' <;> simp [listReports, h]
  | cons kv rest ih =>
    obtain ⟨k, l⟩ := kv
    by_cases hk : k = t
    · simp [hk]
    · by_cases hk' : k = t'
      · subst hk'; simp [listReports, hk]
      · simpa [listReports, hk, hk'] using ih

theorem storeTokens_appendReport (s : Store) (t : String) (e : Entry) :
    storeTokens (appendReport s t e) =
      if t ∈ storeTokens s then storeTokens s else storeTokens s ++ [t] := by
  induction s with
  | nil => simp
  | cons kv rest ih =>
    obtain ⟨k, l⟩ := kv
    by_cases hk : k = t
    · subst hk; simp
    · simp only [appendReport_cons, if_neg hk, storeTokens_cons, ih,
        List.mem_cons]
      have ht : ¬ t = k := fun hh => hk hh.symm
      by_cases hmem : t ∈ storeTokens rest <;> simp [ht, hmem]

theorem storeTokens_createToken (s : Store) (t : String) :
    storeTokens (createToken s t) =
      if t ∈ storeTokens s then storeTokens s else storeTokens s ++ [t] := by
  induction s with
  | nil => simp
  | cons kv rest ih =>
    obtain ⟨k, l⟩ := kv
    by_cases hk : k = t
    · subst hk; simp
    · simp only [createToken_cons, if_neg hk, storeTokens_cons, ih,
        List.mem_cons]
      have ht : ¬ t = k := fun hh => hk hh.symm
      by_cases hmem : t ∈ storeTokens rest <;> simp [ht, hmem]

theorem mem_storeTokens_appendReport (s : Store) (t : String) (e : Entry) :
    t ∈ storeTokens (appendReport s t e) := by
  rw [storeTokens_appendReport]
  by_cases h : t ∈ storeTokens s <;> simp [h]

theorem createToken_of_mem {s : Store} {t : String} (h : t ∈ storeTokens s) :
    createToken s t = s := by
  induction s with
  | nil => simp at h
  | cons kv rest ih =>
    obtain ⟨k, l⟩ := kv
    by_cases hk : k = t
    · simp [hk]
    · have : t ∈ storeTokens rest := by
        rcases List.mem_cons.mp h with h1 | h1
        · exact absurd h1.symm hk
        · exact h1
      simp [hk, ih this]

theorem createToken_idem (s : Store) (t : String) :
    createToken (createToken s t) t = createToken s t := by
  apply createToken_of_mem
  rw [storeTokens_createToken]
  by_cases h : t ∈ storeTokens s <;> simp [h]

theorem listReports_foldl_appendReport (rs : List Entry) (s : Store) (t : String) :
    listReports (rs.foldl (fun st e => appendReport st t e) s) t
      = listReports s t ++ rs := by
  induction rs generalizing s with
  | nil => simp
  | cons e rs ih =>
    simp [List.foldl_cons, ih, listReports_appendReport_self]

/-!
Lemmas about traces of atomic operations.
-/

theorem mem_storeTokens_applyOp {T : String} {s : Store} {op : Op}
    (h : T ∈ storeTokens (applyOp s op)) : T ∈ storeTokens s ∨ T = op.token := by
  cases op with
  | create t =>
    rw [show applyOp s (Op.create t) = createToken s t from rfl,
      storeTokens_createToken] at h
    by_cases hm : t ∈ storeTokens s
    · rw [if_pos hm] at h; exact .inl h
    · rw [if_neg hm] at h
      rcases List.mem_append.mp h with h1 | h1
      · exact .inl h1
      · exact .inr (List.mem_singleton.mp h1)
  | receive t body now addr =>
    cases body with
    | error msg => exact .inl h
    | ok d =>
      rw [show applyOp s (Op.receive t (Except.ok d) now addr)
            = appendReport s t ⟨now, addr, d⟩ from rfl,
        storeTokens_appendReport] at h
      by_cases hm : t ∈ storeTokens s
      · rw [if_pos hm] at h; exact .inl h
      · rw [if_neg hm] at h
        rcases List.mem_append.mp h with h1 | h1
        · exact .inl h1
        · exact .inr (List.mem_singleton.mp h1)

theorem not_mem_storeTokens_foldl {T : String} (ops : List Op) :
    ∀ s : Store, T ∉ storeTokens s → (∀ op ∈ ops, op.token ≠ T) →
      T ∉ storeTokens (ops.foldl applyOp s) := by
  induction ops with
  | nil => intro s hs _; simpa using hs
  | cons op ops ih =>
    intro s hs hops
    simp only [List.foldl_cons]
    apply ih
    · intro hmem
      rcases mem_storeTokens_applyOp hmem with h1 | h1
      · exact hs h1
      · exact hops op (List.mem_cons_self op ops) h1.symm
    · intro o ho; exact hops o (List.mem_cons_of_mem _ ho)

theorem mem_listReports_applyOp {e : Entry} {s : Store} {op : Op} {t : String}
    (h : e ∈ listReports (applyOp s op) t) :
    e ∈ listReports s t
    ∨ ∃ d now addr, op = Op.receive t (Except.ok d) now addr ∧ e = ⟨now, addr, d⟩ := by
  cases op with
  | create t' =>
    left
    rwa [show applyOp s (Op.create t') = createToken s t' from rfl,
      listReports_createToken] at h
  | receive t' body now addr =>
    cases body with
    | error msg => exact .inl h
    | ok d =>
      by_cases ht : t' = t
      · subst ht
        rw [show applyOp s (Op.receive t' (Except.ok d) now addr)
              = appendReport s t' ⟨now, addr, d⟩ from rfl,
          listReports_appendReport_self] at h
        rcases List.mem_append.mp h with h3 | h3
        · exact .inl h3
        · exact .inr ⟨d, now, addr, rfl, List.mem_singleton.mp h3⟩
      · left
        rwa [show applyOp s (Op.receive t' (Except.ok d) now addr)
              = appendReport s t' ⟨now, addr, d⟩ from rfl,
          listReports_appendReport_ne s ⟨now, addr, d⟩ (fun hh => ht hh.symm)] at h

theorem mem_listReports_foldl (ops : List Op) :
    ∀ (s : Store) {e : Entry} {t : String},
      e ∈ listReports (ops.foldl applyOp s) t →
      e ∈ listReports s t
      ∨ ∃ d now addr, Op.receive t (Except.ok d) now addr ∈ ops ∧ e = ⟨now, addr, d⟩ := by
  induction ops with
  | nil => intro s e t h; exact .inl h
  | cons op ops ih =>
    intro s e t h
    rcases ih (applyOp s op) h with h1 | ⟨d, now, addr, hmem, he⟩
    · rcases mem_listReports_applyOp h1 with h2 | ⟨d, now, addr, hop, he⟩
      · exact .inl h2
      · exact .inr ⟨d, now, addr, hop ▸ List.mem_cons_self op ops, he⟩
    · exact .inr ⟨d, now, addr, List.mem_cons_of_mem _ hmem, he⟩

/-!
Lemmas about session-state metadata and positional list access
(for the aliasing model).
-/

theorem getMeta_setMeta_self (metas : List (String × Meta)) (t : String) (m : Meta) :
    getMeta (setMeta metas t m) t = some m := by
  induction metas with
  | nil => simp [setMeta, getMeta]
  | cons kv rest ih =>
    obtain ⟨k, v⟩ := kv
    by_cases h : k = t
    · subst h; simp [setMeta, getMeta]
    · simp [setMeta, getMeta, h, ih]

theorem get?_set_ne' {α : Type} (l : List α) (i j : Nat) (a : α) (h : i ≠ j) :
    (l.set i a).get? j = l.get? j := by
  induction l generalizing i j with
  | nil => rfl
  | cons x xs ih =>
    cases i with
    | zero =>
      cases j with
      | zero => exact absurd rfl h
      | succ j => rfl
    | succ i =>
      cases j with
      | zero => rfl
      | succ j => exact ih i j (fun hh => h (congrArg Nat.succ hh))

theorem get?_set_self' {α : Type} (l : List α) (i : Nat) (a : α)
    (h : i < l.length) : (l.set i a).get? i = some a := by
  induction l generalizing i with
  | nil => simp at h
  | cons x xs ih =>
    cases i with
    | zero => rfl
    | succ i => exact ih i (Nat.lt_of_succ_lt_succ h)

theorem get?_append_left' {α : Type} (l l' : List α) (i : Nat)
    (h : i < l.length) : (l ++ l').get? i = l.get? i := by
  induction l generalizing i with
  | nil => simp at h
  | cons x xs ih =>
    cases i with
    | zero => rfl
    | succ i => exact ih i (Nat.lt_of_succ_lt_succ h)

theorem getD_eq_get?_getD {α : Type} (l : List α) (i : Nat) (d : α) :
    l.getD i d = (l.get? i).getD d := by
  induction l generalizing i with
  | nil => rfl
  | cons x xs ih =>
    cases i with
    | zero => rfl
    | succ i => exact ih i

/-!
The claims.
-/

/-- C1: for every token `T` never addressed by any operation of the trace (in
particular never registered by the generate-link handler), `list_reports(T)`
is empty, and `receive_report` for `T` nevertheless succeeds (HTTP 200),
implicitly creates the store entry for `T`, and makes the submitted report
visible to a subsequent read. -/
theorem claim1_implicit_creation (ops : List Op) (T : String)
    (hT : ∀ op ∈ ops, op.token ≠ T) (d : Json) (now addr : String) :
    listReports (runOps ops) T = []
    ∧ (receive_report T (Except.ok d) now addr (runOps ops)).2.2 = 200
    ∧ T ∈ storeTokens (receive_report T (Except.ok d) now addr (runOps ops)).1
    ∧ listReports (receive_report T (Except.ok d) now addr (runOps ops)).1 T
        = [⟨now, addr, d⟩] := by
  have hnot : T ∉ storeTokens (runOps ops) :=
    not_mem_storeTokens_foldl ops [] (by simp) hT
  have hemp : listReports (runOps ops) T = [] := listReports_of_not_mem hnot
  refine ⟨hemp, rfl, ?_, ?_⟩
  · exact mem_storeTokens_appendReport (runOps ops) T ⟨now, addr, d⟩
  · show listReports (appendReport (runOps ops) T ⟨now, addr, d⟩) T = _
    rw [listReports_appendReport_self, hemp]
    exact List.nil_append _

theorem claim1_implicit_creation_witness :
    listReports (runOps [Op.create "abc123"]) "zzz999" = []
    ∧ (receive_report "zzz999" (Except.ok (Json.num 1)) "t0" "a0"
        (runOps [Op.create "abc123"])).2.2 = 200
    ∧ "zzz999" ∈ storeTokens (receive_report "zzz999" (Except.ok (Json.num 1))
        "t0" "a0" (runOps [Op.create "abc123"])).1
    ∧ listReports (receive_report "zzz999" (Except.ok (Json.num 1)) "t0" "a0"
        (runOps [Op.create "abc123"])).1 "zzz999" = [⟨"t0", "a0", Json.num 1⟩] :=
  claim1_implicit_creation [Op.create "abc123"] "zzz999" (by decide)
    (Json.num 1) "t0" "a0"

/-- C2 counterexample: a payload whose `latitude` is present but non-numeric
is *not* rejected — `receive_report` performs no latitude/longitude
validation whatsoever (lt.py lines 116-133).  The submission returns
HTTP 200, not 400, and the report list for the token grows from empty to one
entry. -/
theorem claim2_counterexample :
    jsonGet badLatPayload "latitude" = some (Json.str "not-a-number")
    ∧ (receive_report "abc123" (Except.ok badLatPayload) "t0" "a0" []).2.2 = 200
    ∧ (receive_report "abc123" (Except.ok badLatPayload) "t0" "a0" []).2.2 ≠ 400
    ∧ listReports ([] : Store) "abc123" = []
    ∧ listReports (receive_report "abc123" (Except.ok badLatPayload) "t0" "a0" []).1
        "abc123" = [⟨"t0", "a0", badLatPayload⟩] :=
  ⟨rfl, rfl, by decide, rfl, rfl⟩

/-- C2 amended: the ingestion operation rejects a submission if and only if
the request body fails to parse as JSON; a payload with missing or
non-numeric latitude/longitude parses and is therefore accepted.  A rejected
submission leaves the store unchanged (no partial write). -/
theorem claim2_amended (t : String) (body : Except String Json)
    (now addr : String) (s : Store) :
    ((receive_report t body now addr s).2.2 = 400 ↔ ∃ msg, body = Except.error msg)
    ∧ (∀ msg, body = Except.error msg →
        (receive_report t body now addr s).1 = s
        ∧ (receive_report t body now addr s).2.2 = 400)
    ∧ (∀ d, body = Except.ok d → (receive_report t body now addr s).2.2 = 200) := by
  cases body with
  | error msg =>
    refine ⟨⟨fun _ => ⟨msg, rfl⟩, fun _ => rfl⟩, ?_, ?_⟩
    · intro msg' _; exact ⟨rfl, rfl⟩
    · intro d hd; exact Except.noConfusion hd
  | ok d =>
    refine ⟨⟨fun hh => ?_, fun hh => ?_⟩,
      fun msg hmsg => Except.noConfusion hmsg, fun d' _ => rfl⟩
    · exact absurd hh (by simp [receive_report])
    · rcases hh with ⟨msg, hmsg⟩; exact Except.noConfusion hmsg

theorem claim2_amended_witness :
    (receive_report "abc123" (Except.error "boom") "t0" "a0" []).1 = ([] : Store)
    ∧ (receive_report "abc123" (Except.error "boom") "t0" "a0" []).2.2 = 400 :=
  (claim2_amended "abc123" (Except.error "boom")
    "t0" "a0" []).2.1 "boom" rfl

/-- C3 counterexample: the dashboard token list (lt.py line 200) is built
from session-state `meta_` entries, not from the keys of `reports`.  After a
link was generated for `abc123` and a report was submitted directly to the
never-generated token `zzz999`, the token list still shows only `abc123`:
`zzz999` is a key of the store and its report is readable, yet it does not
appear in the token list. -/
theorem claim3_counterexample :
    dashTokens (sysReceive (generateLink ⟨[], []⟩ "abc123" "" 0 0) "zzz999"
        (Except.ok (Json.num 1)) "t0" "a0").1.metas = ["abc123"]
    ∧ "zzz999" ∉ dashTokens (sysReceive (generateLink ⟨[], []⟩ "abc123" "" 0 0)
        "zzz999" (Except.ok (Json.num 1)) "t0" "a0").1.metas
    ∧ "zzz999" ∈ storeTokens (sysReceive (generateLink ⟨[], []⟩ "abc123" "" 0 0)
        "zzz999" (Except.ok (Json.num 1)) "t0" "a0").1.store
    ∧ listReports (sysReceive (generateLink ⟨[], []⟩ "abc123" "" 0 0) "zzz999"
        (Except.ok (Json.num 1)) "t0" "a0").1.store "zzz999"
        = [⟨"t0", "a0", Json.num 1⟩] :=
  ⟨rfl, by decide, by decide, rfl⟩

/-- C3 amended: a report submission never touches the session-state metadata,
so the dashboard token list is unchanged by it and lists exactly the
generated links; the implicitly created token appears in the *store's* key
set and its report is readable there. -/
theorem claim3_amended (st : SysState) (t : String) (body : Except String Json)
    (now addr : String) :
    (sysReceive st t body now addr).1.metas = st.metas
    ∧ dashTokens (sysReceive st t body now addr).1.metas = dashTokens st.metas
    ∧ (∀ d, body = Except.ok d →
        t ∈ storeTokens (sysReceive st t body now addr).1.store
        ∧ listReports (sysReceive st t body now addr).1.store t
            = listReports st.store t ++ [⟨now, addr, d⟩]) := by
  refine ⟨rfl, rfl, ?_⟩
  intro d hd; subst hd
  exact ⟨mem_storeTokens_appendReport st.store t ⟨now, addr, d⟩,
    listReports_appendReport_self st.store t ⟨now, addr, d⟩⟩

theorem claim3_amended_witness :
    "zzz999" ∈ storeTokens (sysReceive ⟨[], []⟩ "zzz999" (Except.ok (Json.num 1))
        "t0" "a0").1.store :=
  ((claim3_amended ⟨[], []⟩ "zzz999" (Except.ok (Json.num 1))
    "t0" "a0").2.2 (Json.num 1) rfl).1

/-- C4: every append runs atomically inside `with reports_lock`
(lt.py lines 130-131), so a concurrent execution of N appends of distinct
reports to token `t` is a sequential execution of the same atomic appends in
some interleaving order — a permutation of the N reports.  Whatever that
interleaving, a subsequent read returns exactly N reports, each equal to some
submitted report, with no duplicates and no omissions; only whole entries are
ever stored, so no torn report is observable. -/
theorem claim4_concurrent_appends (rs interleaving : List Entry) (t : String)
    (s : Store) (hperm : interleaving.Perm rs) (hempty : listReports s t = []) :
    listReports (interleaving.foldl (fun st e => appendReport st t e) s) t
        = interleaving
    ∧ (listReports (interleaving.foldl (fun st e => appendReport st t e) s) t).length
        = rs.length
    ∧ (listReports (interleaving.foldl (fun st e => appendReport st t e) s) t).Perm rs
    ∧ (∀ e, e ∈ listReports (interleaving.foldl (fun st e => appendReport st t e) s) t
        ↔ e ∈ rs)
    ∧ (rs.Nodup →
        (listReports (interleaving.foldl (fun st e => appendReport st t e) s) t).Nodup) := by
  have hfin : listReports (interleaving.foldl (fun st e => appendReport st t e) s) t
      = interleaving := by
    rw [listReports_foldl_appendReport, hempty]
    exact List.nil_append _
  refine ⟨hfin, ?_, ?_, ?_, ?_⟩ <;> rw [hfin]
  · exact hperm.length_eq
  · exact hperm
  · intro e; exact hperm.mem_iff
  · intro hnd; exact hperm.nodup_iff.mpr hnd

theorem claim4_concurrent_appends_witness :
    (listReports ([entryB, entryA].foldl
        (fun st e => appendReport st "tok" e) ([] : Store)) "tok").length
      = [entryA, entryB].length :=
  (claim4_concurrent_appends [entryA, entryB] [entryB, entryA] "tok" []
    (List.Perm.swap entryA entryB []) rfl).2.1

/-- C5: `receive_report` appends each entry at the end of its token's list
(`.append(entry)`, lt.py line 131), so reports sit in server arrival order,
and no operation of the program updates or deletes a stored report: every
operation leaves the existing list a prefix of the new one, extending it by
at most the newly arrived entry. -/
theorem claim5_append_order_immutable :
    (∀ (s : Store) (t : String) (e : Entry),
        listReports (appendReport s t e) t = listReports s t ++ [e])
    ∧ (∀ (s : Store) (op : Op) (t : String),
        ∃ added, listReports (applyOp s op) t = listReports s t ++ added) := by
  refine ⟨listReports_appendReport_self, ?_⟩
  intro s op t
  cases op with
  | create t' =>
    exact ⟨[], by rw [show applyOp s (Op.create t') = createToken s t' from rfl,
      listReports_createToken]; simp⟩
  | receive t' body now addr =>
    cases body with
    | error msg =>
      exact ⟨[], by
        rw [show applyOp s (Op.receive t' (Except.error msg) now addr) = s from rfl]
        simp⟩
    | ok d =>
      by_cases h : t = t'
      · subst h
        exact ⟨[⟨now, addr, d⟩],
          by exact listReports_appendReport_self s t ⟨now, addr, d⟩⟩
      · exact ⟨[], by
          rw [show applyOp s (Op.receive t' (Except.ok d) now addr)
                = appendReport s t' ⟨now, addr, d⟩ from rfl,
            listReports_appendReport_ne s ⟨now, addr, d⟩ h]
          simp⟩

/-- C6: round-trip fidelity.  Every report a read returns originates from an
accepted submission of the trace and wraps that submission's payload
verbatim: its `received_at`/`remote_addr` are the server-assigned values of
that request and its payload — hence its `latitude` and `longitude`
fields — is exactly the submitted JSON value. -/
theorem claim6_roundtrip (ops : List Op) (t : String) (e : Entry)
    (h : e ∈ listReports (runOps ops) t) :
    ∃ d now addr, Op.receive t (Except.ok d) now addr ∈ ops
      ∧ e = ⟨now, addr, d⟩
      ∧ e.payload = d
      ∧ jsonGet e.payload "latitude" = jsonGet d "latitude"
      ∧ jsonGet e.payload "longitude" = jsonGet d "longitude" := by
  rcases mem_listReports_foldl ops [] h with h1 | ⟨d, now, addr, hmem, he⟩
  · exact absurd h1 (by simp [listReports])
  · exact ⟨d, now, addr, hmem, he, by rw [he], by rw [he], by rw [he]⟩

theorem claim6_roundtrip_witness :
    ∃ d now addr,
      Op.receive "tok" (Except.ok d) now addr
          ∈ [Op.receive "tok" (Except.ok (Json.num 7)) "t0" "a0"]
      ∧ (⟨"t0", "a0", Json.num 7⟩ : Entry) = ⟨now, addr, d⟩
      ∧ (⟨"t0", "a0", Json.num 7⟩ : Entry).payload = d
      ∧ jsonGet (⟨"t0", "a0", Json.num 7⟩ : Entry).payload "latitude"
          = jsonGet d "latitude"
      ∧ jsonGet (⟨"t0", "a0", Json.num 7⟩ : Entry).payload "longitude"
          = jsonGet d "longitude" :=
  claim6_roundtrip [Op.receive "tok" (Except.ok (Json.num 7)) "t0" "a0"]
    "tok" ⟨"t0", "a0", Json.num 7⟩ (List.mem_singleton_self _)

/-- C7: `reports.setdefault(token, [])` (lt.py line 179) is idempotent:
running it a second time is a no-op at the store level, the token is counted
exactly once among the store's keys (given the dictionary invariant that keys
are unique), and re-registering never clears or alters any accumulated
report list. -/
theorem claim7_createToken_idempotent (s : Store) (t : String) :
    createToken (createToken s t) t = createToken s t
    ∧ ((storeTokens s).Nodup → (storeTokens (createToken s t)).count t = 1)
    ∧ (∀ t', listReports (createToken s t) t' = listReports s t') := by
  refine ⟨createToken_idem s t, ?_, fun t' => listReports_createToken s t t'⟩
  intro hnd
  rw [storeTokens_createToken]
  by_cases h : t ∈ storeTokens s
  · rw [if_pos h]
    exact List.count_eq_one_of_mem hnd h
  · rw [if_neg h, List.count_append]
    simp [List.count_eq_zero_of_not_mem h]

theorem claim7_createToken_idempotent_witness :
    createToken (createToken [("abc123", [entryA])] "abc123") "abc123"
        = createToken [("abc123", [entryA])] "abc123"
    ∧ (storeTokens (createToken [("abc123", [entryA])] "abc123")).count "abc123" = 1
    ∧ listReports (createToken [("abc123", [entryA])] "abc123") "abc123"
        = [entryA] := by
  have h := claim7_createToken_idempotent [("abc123", [entryA])] "abc123"
  exact ⟨h.1, h.2.1 (by decide), h.2.2 "abc123"⟩

/-- C9: the generate-link handler computes and records an expiry timestamp
(lt.py lines 174-176) which is never enforced: a report submission for the
token succeeds (HTTP 200) and becomes readable at any receipt time, in
particular strictly after the expiry time has passed, and the store
operations neither read nor depend on the session-state metadata holding the
expiry — their results are invariant under replacing it entirely. -/
theorem claim9_expiry_never_enforced (st : SysState) (token label : String)
    (ttl now : Nat) (httl : 0 < ttl) :
    getMeta (generateLink st token label ttl now).metas token
        = some ⟨label, some (now + ttl), token⟩
    ∧ (∀ (nowAfter : Nat) (addr : String) (d : Json), now + ttl < nowAfter →
        (sysReceive (generateLink st token label ttl now) token (Except.ok d)
            (toString nowAfter) addr).2.2 = 200
        ∧ listReports (sysReceive (generateLink st token label ttl now) token
              (Except.ok d) (toString nowAfter) addr).1.store token
            = listReports (generateLink st token label ttl now).store token
                ++ [⟨toString nowAfter, addr, d⟩])
    ∧ (∀ (metas₁ metas₂ : List (String × Meta)) (body : Except String Json)
          (now₂ addr₂ : String),
        (sysReceive ⟨(generateLink st token label ttl now).store, metas₁⟩
            token body now₂ addr₂).1.store
          = (sysReceive ⟨(generateLink st token label ttl now).store, metas₂⟩
              token body now₂ addr₂).1.store
        ∧ (sysReceive ⟨(generateLink st token label ttl now).store, metas₁⟩
            token body now₂ addr₂).2
          = (sysReceive ⟨(generateLink st token label ttl now).store, metas₂⟩
              token body now₂ addr₂).2) := by
  refine ⟨?_, ?_, ?_⟩
  · show getMeta (setMeta st.metas token
        ⟨label, if ttl > 0 then some (now + ttl) else none, token⟩) token = _
    rw [if_pos httl]
    exact getMeta_setMeta_self st.metas token ⟨label, some (now + ttl), token⟩
  · intro nowAfter addr d _
    refine ⟨rfl, ?_⟩
    exact listReports_appendReport_self
      (generateLink st token label ttl now).store token ⟨toString nowAfter, addr, d⟩
  · intro metas₁ metas₂ body now₂ addr₂
    exact ⟨rfl, rfl⟩

theorem claim9_expiry_never_enforced_witness :
    (sysReceive (generateLink ⟨[], []⟩ "abc123" "x" 1 0) "abc123"
        (Except.ok Json.null) (toString 2) "a0").2.2 = 200 :=
  ((claim9_expiry_never_enforced ⟨[], []⟩ "abc123" "x" 1 0
    (by decide)).2.1 2 "a0" Json.null (by decide)).1

/-- C10: `receive_report` (lt.py lines 116-133) returns HTTP 200 with body
`{"status": "ok"}` for every request body that parses as JSON — whatever its
structure, objects lacking coordinates and non-object values included —
appending exactly one entry that wraps the payload verbatim together with the
server receipt timestamp and the sender's address, and leaving every other
token's list untouched; it returns 400 (`Invalid JSON`) if and only if the
body does not parse, in which case the store is unchanged. -/
theorem claim10_receive_total (t : String) (body : Except String Json)
    (now addr : String) (s : Store) :
    (∀ msg, body = Except.error msg →
        receive_report t body now addr s
          = (s, Json.obj [("error", Json.str "Invalid JSON"),
              ("details", Json.str msg)], 400))
    ∧ (∀ d, body = Except.ok d →
        (receive_report t body now addr s).2.2 = 200
        ∧ (receive_report t body now addr s).2.1
            = Json.obj [("status", Json.str "ok")]
        ∧ listReports (receive_report t body now addr s).1 t
            = listReports s t ++ [⟨now, addr, d⟩]
        ∧ (∀ t', t' ≠ t →
            listReports (receive_report t body now addr s).1 t'
              = listReports s t')) := by
  constructor
  · intro msg hmsg; subst hmsg; rfl
  · intro d hd; subst hd
    refine ⟨rfl, rfl, ?_, ?_⟩
    · exact listReports_appendReport_self s t ⟨now, addr, d⟩
    · intro t' ht'
      exact listReports_appendReport_ne s ⟨now, addr, d⟩ ht'

theorem claim10_receive_total_witness :
    (receive_report "tok" (Except.ok (Json.arr [])) "t0" "a0" []).2.2 = 200
    ∧ listReports (receive_report "tok" (Except.ok (Json.arr []))
        "t0" "a0" []).1 "other" = listReports ([] : Store) "other" := by
  have h := (claim10_receive_total "tok" (Except.ok (Json.arr []))
    "t0" "a0" []).2 (Json.arr []) rfl
  exact ⟨h.1, h.2.2.2 "other" (by decide)⟩

/-!
Claim C8: the aliasing consequences of the shallow copy at lt.py line 207.
-/

theorem snapshotCopy_eq {h : Aliasing.PyHeap} {s : Aliasing.HStore}
    {t : String} {lr : Nat} (hlr : Aliasing.hlookup s t = some lr) :
    Aliasing.snapshotCopy h s t
      = (⟨h.lists ++ [Aliasing.getListRefs h lr], h.entries⟩, h.lists.length) := by
  unfold Aliasing.snapshotCopy
  rw [hlr]

theorem observedReports_eq {h : Aliasing.PyHeap} {s : Aliasing.HStore}
    {t : String} {lr : Nat} (hlr : Aliasing.hlookup s t = some lr) :
    Aliasing.observedReports h s t
      = (Aliasing.getListRefs h lr).map (fun er => h.entries.get? er) := by
  unfold Aliasing.observedReports
  rw [hlr]

theorem getListRefs_extend {h : Aliasing.PyHeap} {lr : Nat} (X : List Nat)
    (entries' : List Entry) (hlt : lr < h.lists.length) :
    Aliasing.getListRefs ⟨h.lists ++ [X], entries'⟩ lr
      = Aliasing.getListRefs h lr := by
  show (h.lists ++ [X]).getD lr [] = h.lists.getD lr []
  rw [getD_eq_get?_getD, getD_eq_get?_getD, get?_append_left' h.lists [X] lr hlt]

theorem getListRefs_set_ne {lists : List (List Nat)} {entries : List Entry}
    {i j : Nat} (Y : List Nat) (hij : i ≠ j) :
    Aliasing.getListRefs ⟨lists.set i Y, entries⟩ j
      = Aliasing.getListRefs ⟨lists, entries⟩ j := by
  show (lists.set i Y).getD j [] = lists.getD j []
  rw [getD_eq_get?_getD, getD_eq_get?_getD, get?_set_ne' lists i j Y hij]

/-- C8 counterexample: `reports.get(sel, []).copy()` is a *shallow* copy.
In a heap with one stored report, the snapshot handed to the caller is a
fresh list object, but it holds a reference (object 0) to the very entry
record the store holds; mutating that record in place through the snapshot
changes what every subsequent `list_reports` observes — from `entryA` to
`entryB` — refuting the claim that no mutation of the returned report
records can change the store's state. -/
theorem claim8_counterexample :
    Aliasing.observedReports heap0 hstore0 "tok" = [some entryA]
    ∧ Aliasing.getListRefs (Aliasing.snapshotCopy heap0 hstore0 "tok").1
        (Aliasing.snapshotCopy heap0 hstore0 "tok").2 = [0]
    ∧ Aliasing.observedReports
        (Aliasing.callerEntryWrite (Aliasing.snapshotCopy heap0 hstore0 "tok").1
          0 entryB) hstore0 "tok" = [some entryB]
    ∧ entryA ≠ entryB := by
  refine ⟨rfl, rfl, rfl, ?_⟩
  intro hEq
  exact absurd (congrArg Entry.received_at hEq) (by decide)

/-- C8 amended: the dashboard read returns a *sequence-level* snapshot: the
returned list object is freshly allocated, distinct from the stored one, the
read itself changes nothing observable, and caller mutations of the returned
sequence (such as appending to it) never change what the store's reads
return.  The copy is shallow, however: the report records inside it are the
store's own objects, and an in-place write to one of them through a shared
reference is visible in every subsequent read, replacing exactly the
positions that reference the written record. -/
theorem claim8_amended (h : Aliasing.PyHeap) (s : Aliasing.HStore) (t : String)
    (lr : Nat) (hlr : Aliasing.hlookup s t = some lr)
    (hlt : lr < h.lists.length) :
    (Aliasing.snapshotCopy h s t).2 ≠ lr
    ∧ Aliasing.observedReports (Aliasing.snapshotCopy h s t).1 s t
        = Aliasing.observedReports h s t
    ∧ (∀ er, Aliasing.observedReports
          (Aliasing.callerListAppend (Aliasing.snapshotCopy h s t).1
            (Aliasing.snapshotCopy h s t).2 er) s t
        = Aliasing.observedReports h s t)
    ∧ (∀ er e', er < h.entries.length →
        Aliasing.observedReports
            (Aliasing.callerEntryWrite (Aliasing.snapshotCopy h s t).1 er e') s t
          = (Aliasing.getListRefs h lr).map
              (fun r => if r = er then some e' else h.entries.get? r)) := by
  have hne : h.lists.length ≠ lr := fun hh => Nat.lt_irrefl lr (hh ▸ hlt)
  rw [snapshotCopy_eq hlr]
  dsimp only
  refine ⟨hne, ?_, ?_, ?_⟩
  · rw [observedReports_eq hlr, observedReports_eq hlr]
    dsimp only
    rw [getListRefs_extend _ _ hlt]
  · intro er
    rw [observedReports_eq hlr, observedReports_eq hlr]
    dsimp only [Aliasing.callerListAppend]
    rw [getListRefs_set_ne _ hne, getListRefs_extend _ _ hlt]
  · intro er e' her
    rw [observedReports_eq hlr]
    dsimp only [Aliasing.callerEntryWrite]
    rw [getListRefs_extend _ _ hlt]
    have hfun : ∀ r, (h.entries.set er e').get? r
        = if r = er then some e' else h.entries.get? r := by
      intro r
      by_cases hr : r = er
      · subst hr
        rw [if_pos rfl]
        exact get?_set_self' h.entries r e' her
      · rw [if_neg hr]
        exact get?_set_ne' h.entries er r e' (fun hh => hr hh.symm)
    simp only [hfun]

theorem claim8_amended_witness :
    Aliasing.observedReports (Aliasing.snapshotCopy heap0 hstore0 "tok").1
        hstore0 "tok"
      = Aliasing.observedReports heap0 hstore0 "tok" :=
  (claim8_amended heap0 hstore0 "tok" 0 rfl (by decide)).2.1

end LocationTracker
